import Mathlib

deriving instance DecidableEq for Except

/-!
Verification of the schema & addressing bootstrap layer of the hash
equivalence service (`lib/hashserv/__init__.py`).

Strings are modelled as `List Char` (Python `str`, ASCII scope).  Python
exceptions (`ValueError` from `int()` / tuple unpacking / URL port parsing,
sqlite errors) are modelled with `Except Unit`.
-/

namespace HashServ

/-! ## Generic string helpers (Python string methods on `List Char`) -/

/-- Removes the given leading pattern: `dropPfx? p s = some r` iff
`s = p ++ r`; models Python `s.startswith(p)` together with slicing
`s[len(p):]`. -/
def dropPfx? : List Char → List Char → Option (List Char)
  | [], s => some s
  | _ :: _, [] => none
  | p :: ps, c :: cs => if p = c then dropPfx? ps cs else none

/-- Models Python substring containment `pat in s` (contiguous). -/
def containsSub (pat : List Char) : List Char → Bool
  | [] => (dropPfx? pat []).isSome
  | c :: cs => (dropPfx? pat (c :: cs)).isSome || containsSub pat cs

/-- Part of `s` after the last occurrence of `c` (all of `s` when `c` does
not occur); models the `after` component of Python `s.rpartition(c)`
combined with the fallback to the whole string used in `_hostinfo`. -/
def afterLast (c : Char) (s : List Char) : List Char :=
  (s.reverse.takeWhile (fun x => x ≠ c)).reverse

/-- Models Python `s.partition(c)`: text before the first `c`, whether `c`
occurs, and the text after it. -/
def partition3 (c : Char) (s : List Char) : List Char × Bool × List Char :=
  match s.dropWhile (fun x => x ≠ c) with
  | [] => (s.takeWhile (fun x => x ≠ c), false, [])
  | _ :: t => (s.takeWhile (fun x => x ≠ c), true, t)

/-- ASCII whitespace stripped by Python `int()` (`str.strip`). -/
def pyIsSpace (c : Char) : Bool :=
  c = ' ' || c = '\t' || c = '\n' || c = '\r' || c = Char.ofNat 11 || c = Char.ofNat 12

/-- Python `str.strip()` (ASCII scope): drop whitespace from both ends. -/
def pyStrip (s : List Char) : List Char :=
  (((s.dropWhile pyIsSpace).reverse.dropWhile pyIsSpace)).reverse

/-- After an initial digit, CPython `int()` accepts further digits with
single underscores allowed only between digits. -/
def duTail : List Char → Bool
  | [] => true
  | c :: rest =>
    if c = '_' then
      (match rest with
       | [] => false
       | d :: _ => d.isDigit) && duTail rest
    else
      c.isDigit && duTail rest

/-- A valid unsigned digit run for CPython `int()`: nonempty, starts with a
digit, single underscores only between digits. -/
def duOk : List Char → Bool
  | [] => false
  | c :: rest => c.isDigit && duTail rest

/-- Decimal value of a digit list. -/
def decVal (s : List Char) : Nat :=
  s.foldl (fun a c => a * 10 + (c.toNat - 48)) 0

/-- Value of a digit-and-underscore run: underscores are ignored. -/
def duVal (s : List Char) : Nat :=
  decVal (s.filter (fun c => c != '_'))

/-- Models CPython `int(s)` (base 10, ASCII scope): optional surrounding
whitespace, optional single `+`/`-` sign, then digits with single
embedded underscores.  `none` models `ValueError`. -/
def pyInt? (s : List Char) : Option Int :=
  match pyStrip s with
  | [] => none
  | c :: rest =>
    if c = '+' then (if duOk rest then some (Int.ofNat (duVal rest)) else none)
    else if c = '-' then (if duOk rest then some (-(Int.ofNat (duVal rest))) else none)
    else if duOk (c :: rest) then some (Int.ofNat (duVal (c :: rest))) else none

/-- ASCII lower-casing of one character, as done by Python `str.lower()`
on ASCII input. -/
def pyLower (c : Char) : Char :=
  if 65 ≤ c.toNat ∧ c.toNat ≤ 90 then Char.ofNat (c.toNat + 32) else c

/-! ## Address parsing (`parse_address`) -/

/-- Source constant `UNIX_PREFIX = "unix://"`. -/
def UNIX_PFX : List Char := "unix://".toList

/-- Source constant `WS_PREFIX = "ws://"`. -/
def WS_PFX : List Char := "ws://".toList

/-- Source constant `WSS_PREFIX = "wss://"`. -/
def WSS_PFX : List Char := "wss://".toList

/-- The three address kinds `ADDR_TYPE_UNIX` / `ADDR_TYPE_TCP` /
`ADDR_TYPE_WS` together with their parameter tuples. -/
inductive Address
  | unix (path : List Char)
  | ws (url : List Char)
  | tcp (host : List Char) (port : Int)
deriving DecidableEq

/-- Models `re.match(r'\[(?P<host>[^\]]*)\]:(?P<port>\d+)$', addr)`,
returning the two capture groups.  `[^\]]*` greedily takes everything up
to the first `]`; `\d+` must be nonempty and `$` matches at the end of the
string or just before one final newline. -/
def bracketMatch? (addr : List Char) : Option (List Char × List Char) :=
  match addr with
  | '[' :: rest =>
    let host := rest.takeWhile (fun c => c ≠ ']')
    match rest.dropWhile (fun c => c ≠ ']') with
    | ']' :: ':' :: rest3 =>
      let digits := rest3.takeWhile Char.isDigit
      let tail := rest3.dropWhile Char.isDigit
      if digits ≠ [] ∧ (tail = [] ∨ tail = ['\n']) then some (host, digits) else none
    | _ => none
  | _ => none

/-- Models `parse_address`: the `unix://` check, then the `ws://`/`wss://`
check, then the bracketed regex, then `addr.split(':')` into exactly two
parts, and finally `int(port)` on the port text of either TCP branch.
`Except.error ()` models the `ValueError` raised by a failed 2-tuple
unpacking of `split` or by `int()`. -/
def parse_address (addr : List Char) : Except Unit Address :=
  match dropPfx? UNIX_PFX addr with
  | some rest => .ok (.unix rest)
  | none =>
    if (dropPfx? WS_PFX addr).isSome || (dropPfx? WSS_PFX addr).isSome then
      .ok (.ws addr)
    else
      let hp? : Option (List Char × List Char) :=
        match bracketMatch? addr with
        | some hp => some hp
        | none =>
          match List.splitOn ':' addr with
          | [h, p] => some (h, p)
          | _ => none
      match hp? with
      | some (h, p) =>
        match pyInt? p with
        | some n => .ok (.tcp h n)
        | none => .error ()
      | none => .error ()

/-! ## URL parsing (`urllib.parse.urlparse`, restricted to the pieces the
source uses on `ws://`/`wss://` addresses: `.hostname` and `.port`) -/

/-- The netloc of a `ws://` or `wss://` URL: the text between the
`scheme://` and the next `/`, `?` or `#`.  Models `urlsplit`'s netloc
extraction for these two schemes. -/
def netlocOf (url : List Char) : List Char :=
  let rest :=
    match dropPfx? WS_PFX url with
    | some r => r
    | none => (dropPfx? WSS_PFX url).getD []
  rest.takeWhile (fun c => c ≠ '/' && c ≠ '?' && c ≠ '#')

/-- Models CPython `SplitResult._hostinfo`: drop the userinfo up to the
last `@`, then either take the part bracketed by `[` … `]` (port after
the following `:`) or split at the first `:`; an empty port text becomes
`None`. -/
def hostinfoOf (netloc : List Char) : List Char × Option (List Char) :=
  let hi := afterLast '@' netloc
  let (_, foundBr, bracketed) := partition3 '[' hi
  if foundBr then
    let (hostname, _, rest) := partition3 ']' bracketed
    let (_, _, port) := partition3 ':' rest
    (hostname, if port = [] then none else some port)
  else
    let (hostname, _, port) := partition3 ':' hi
    (hostname, if port = [] then none else some port)

/-- Models CPython `SplitResult.hostname`: `None` when empty, otherwise
lower-cased, preserving the case of an IPv6 zone id after `%`. -/
def urlHostname (url : List Char) : Option (List Char) :=
  let h := (hostinfoOf (netlocOf url)).1
  if h = [] then none
  else
    let (pre, foundPct, zone) := partition3 '%' h
    some (pre.map pyLower ++ if foundPct then '%' :: zone else [])

/-- Models CPython `SplitResult.port`: `None` when the netloc carries no
port text, otherwise the port text must be all ASCII digits with value
at most 65535 (`ValueError`, modelled by `Except.error`, otherwise). -/
def urlPort? (url : List Char) : Except Unit (Option Nat) :=
  match (hostinfoOf (netlocOf url)).2 with
  | none => .ok none
  | some p =>
    if p.all Char.isDigit then
      if decVal p ≤ 65535 then .ok (some (decVal p)) else .error ()
    else .error ()

/-! ## Database schema (`setup_database`, `_make_table`)

The sqlite store is modelled by the schema objects (table and index
names) plus the rows of the two current-generation tables and the two
pragma settings.  Each `cursor.execute` of `setup_database` is modelled
by one statement-semantics function; `Except.error` models an
`sqlite3` error. -/

/-- A row of `unihashes_v2` (the surrogate `id` key is not modelled; it
never participates in the claims). -/
structure UniRow where
  method : String
  taskhash : String
  unihash : String
deriving DecidableEq

/-- A row of `outhashes_v2`; the optional provenance columns are nullable. -/
structure OutRow where
  method : String
  taskhash : String
  outhash : String
  created : Option String
  owner : Option String
  PN : Option String
  PV : Option String
  PR : Option String
  task : Option String
  outhash_siginfo : Option String
deriving DecidableEq

/-- The observable state of the sqlite store. -/
structure DBState where
  tables : List String
  indexes : List String
  uniRows : List UniRow
  outRows : List OutRow
  journalMode : String
  synchronous : String
deriving DecidableEq

/-- Source constant `UNIHASH_TABLE_DEFINITION`: (name, type, flags). -/
def UNIHASH_TABLE_DEFINITION : List (String × String × String) :=
  [("method", "TEXT NOT NULL", "UNIQUE"),
   ("taskhash", "TEXT NOT NULL", "UNIQUE"),
   ("unihash", "TEXT NOT NULL", "")]

/-- Source constant `OUTHASH_TABLE_DEFINITION`: (name, type, flags). -/
def OUTHASH_TABLE_DEFINITION : List (String × String × String) :=
  [("method", "TEXT NOT NULL", "UNIQUE"),
   ("taskhash", "TEXT NOT NULL", "UNIQUE"),
   ("outhash", "TEXT NOT NULL", "UNIQUE"),
   ("created", "DATETIME", ""),
   ("owner", "TEXT", ""),
   ("PN", "TEXT", ""),
   ("PV", "TEXT", ""),
   ("PR", "TEXT", ""),
   ("task", "TEXT", ""),
   ("outhash_siginfo", "TEXT", "")]

/-- The columns `_make_table` puts into the composite `UNIQUE(...)` clause:
`name for name, _, flags in definition if "UNIQUE" in flags`. -/
def uniqueCols (d : List (String × String × String)) : List String :=
  (d.filter (fun c => containsSub "UNIQUE".toList c.2.2.toList)).map (fun c => c.1)

/-- Dropping a table discards its rows (only the two tracked tables hold
modelled rows). -/
def tblReset (name : String) (s : DBState) : DBState :=
  if name = "unihashes_v2" then { s with uniRows := [] }
  else if name = "outhashes_v2" then { s with outRows := [] }
  else s

/-- sqlite `CREATE TABLE [IF NOT EXISTS]`: an existing table is an error
unless the guard is given; a created table starts empty. -/
def sqlCreateTable (name : String) (guarded : Bool) (s : DBState) : Except Unit DBState :=
  if name ∈ s.tables then
    if guarded then .ok s else .error ()
  else .ok { tblReset name s with tables := name :: s.tables }

/-- sqlite `DROP TABLE [IF EXISTS]`. -/
def sqlDropTable (name : String) (guarded : Bool) (s : DBState) : Except Unit DBState :=
  if name ∈ s.tables then
    .ok { tblReset name s with tables := s.tables.filter (fun t => t ≠ name) }
  else if guarded then .ok s else .error ()

/-- sqlite `CREATE INDEX [IF NOT EXISTS] name ON tbl (...)`: an existing
index is an error unless the guard is given; creating one requires the
target table to exist. -/
def sqlCreateIndex (name : String) (tbl : String) (guarded : Bool) (s : DBState) :
    Except Unit DBState :=
  if name ∈ s.indexes then
    if guarded then .ok s else .error ()
  else if tbl ∈ s.tables then .ok { s with indexes := name :: s.indexes }
  else .error ()

/-- sqlite `DROP INDEX [IF EXISTS]`. -/
def sqlDropIndex (name : String) (guarded : Bool) (s : DBState) : Except Unit DBState :=
  if name ∈ s.indexes then
    .ok { s with indexes := s.indexes.filter (fun i => i ≠ name) }
  else if guarded then .ok s else .error ()

/-- Models `PRAGMA journal_mode = <mode>` (never errors). -/
def sqlPragmaJournal (mode : String) (s : DBState) : Except Unit DBState :=
  .ok { s with journalMode := mode }

/-- Models `PRAGMA synchronous = <value>` (never errors). -/
def sqlPragmaSync (value : String) (s : DBState) : Except Unit DBState :=
  .ok { s with synchronous := value }

/-- Models `setup_database(database, sync)`: the exact statement sequence
the source executes — `_make_table` for the two tables (both with
`IF NOT EXISTS`), the two pragmas, the four guarded index drops, the
guarded drop of `tasks_v2`, and the two guarded index creations. -/
def setup_database (s : DBState) (sync : Bool) : Except Unit DBState := do
  let s ← sqlCreateTable "unihashes_v2" true s
  let s ← sqlCreateTable "outhashes_v2" true s
  let s ← sqlPragmaJournal "WAL" s
  let s ← sqlPragmaSync (if sync then "NORMAL" else "OFF") s
  let s ← sqlDropIndex "taskhash_lookup" true s
  let s ← sqlDropIndex "outhash_lookup" true s
  let s ← sqlDropIndex "taskhash_lookup_v2" true s
  let s ← sqlDropIndex "outhash_lookup_v2" true s
  let s ← sqlDropTable "tasks_v2" true s
  let s ← sqlCreateIndex "taskhash_lookup_v3" "unihashes_v2" true s
  let s ← sqlCreateIndex "outhash_lookup_v3" "outhashes_v2" true s
  pure s

/-- Value of a `unihashes_v2` column on a row (only the three real
columns can occur in `uniqueCols UNIHASH_TABLE_DEFINITION`). -/
def uniColVal (r : UniRow) (col : String) : String :=
  if col = "method" then r.method
  else if col = "taskhash" then r.taskhash
  else if col = "unihash" then r.unihash
  else ""

/-- Value of an `outhashes_v2` key column on a row (the optional columns
carry no `UNIQUE` flag, hence never occur in the unique clause). -/
def outColVal (r : OutRow) (col : String) : String :=
  if col = "method" then r.method
  else if col = "taskhash" then r.taskhash
  else if col = "outhash" then r.outhash
  else ""

/-- sqlite `INSERT` into `unihashes_v2`: rejected when an existing row
agrees on every column of the table's composite `UNIQUE` clause. -/
def insert_unihash (s : DBState) (r : UniRow) : Except Unit DBState :=
  if "unihashes_v2" ∈ s.tables then
    if s.uniRows.any (fun r0 =>
        (uniqueCols UNIHASH_TABLE_DEFINITION).all (fun c => uniColVal r0 c == uniColVal r c)) then
      .error ()
    else .ok { s with uniRows := s.uniRows ++ [r] }
  else .error ()

/-- sqlite `INSERT` into `outhashes_v2`: rejected when an existing row
agrees on every column of the table's composite `UNIQUE` clause. -/
def insert_outhash (s : DBState) (r : OutRow) : Except Unit DBState :=
  if "outhashes_v2" ∈ s.tables then
    if s.outRows.any (fun r0 =>
        (uniqueCols OUTHASH_TABLE_DEFINITION).all (fun c => outColVal r0 c == outColVal r c)) then
      .error ()
    else .ok { s with outRows := s.outRows ++ [r] }
  else .error ()

/-- The schema shape guaranteed after any `setup_database` call: the two
current-generation tables and indexes exist, the previous-generation
table and indexes do not. -/
def SetupDone (s : DBState) : Prop :=
  "unihashes_v2" ∈ s.tables ∧ "outhashes_v2" ∈ s.tables ∧ "tasks_v2" ∉ s.tables ∧
  "taskhash_lookup_v3" ∈ s.indexes ∧ "outhash_lookup_v3" ∈ s.indexes ∧
  "taskhash_lookup" ∉ s.indexes ∧ "outhash_lookup" ∉ s.indexes ∧
  "taskhash_lookup_v2" ∉ s.indexes ∧ "outhash_lookup_v2" ∉ s.indexes

/-- A fresh store (no schema objects, sqlite defaults). -/
def wDB0 : DBState := ⟨[], [], [], [], "delete", "FULL"⟩

/-- The store after a first `setup_database` call on `wDB0` with sync. -/
def wDB1 : DBState :=
  ⟨["outhashes_v2", "unihashes_v2"], ["outhash_lookup_v3", "taskhash_lookup_v3"],
   [], [], "WAL", "NORMAL"⟩

/-- A sample `unihashes_v2` row. -/
def wRow : UniRow := ⟨"sha256", "t1", "u1"⟩

/-- A sample `outhashes_v2` row. -/
def wORow : OutRow := ⟨"sha256", "t1", "o1", none, none, none, none, none, none, none⟩

/-- The store `wDB1` after inserting one row into each table between two
`setup_database` calls. -/
def wDB2 : DBState :=
  ⟨["outhashes_v2", "unihashes_v2"], ["outhash_lookup_v3", "taskhash_lookup_v3"],
   [wRow], [wORow], "WAL", "NORMAL"⟩

/-! ## Factories (`create_server`, `create_client`, `create_async_client`)

Each factory is modelled by the list of collaborator start/connect hooks
it invokes, in order; `Except.error` models an exception raised before
returning (`create_server` also opens the database first, which is
modelled separately by `setup_database` below). -/

/-- Listener-start hooks of the external `server.Server` collaborator. -/
inductive SHook
  | startUnix (path : List Char)
  | startWS (hostname : Option (List Char)) (port : Option Nat)
  | startTcp (host : List Char) (port : Int)
deriving DecidableEq

/-- Connect hooks of the external `client.Client` / `client.AsyncClient`
collaborators. -/
inductive CHook
  | connUnix (path : List Char)
  | connWS (url : List Char)
  | connTcp (host : List Char) (port : Int)
deriving DecidableEq

/-- Models the dispatch in `create_server`: `start_unix_server(*a)` for
unix, `start_websocket_server(url.hostname, url.port)` for ws (where
`url.port` may raise before the hook is invoked), `start_tcp_server(*a)`
otherwise. -/
def create_server_hooks (addr : List Char) : Except Unit (List SHook) :=
  match parse_address addr with
  | .error e => .error e
  | .ok (.unix path) => .ok [SHook.startUnix path]
  | .ok (.ws url) =>
    match urlPort? url with
    | .error e => .error e
    | .ok p => .ok [SHook.startWS (urlHostname url) p]
  | .ok (.tcp h p) => .ok [SHook.startTcp h p]

/-- Models the dispatch in `create_client`: `connect_unix(*a)`,
`connect_websocket(*a)` (the parsed tuple holds the original URL string),
or `connect_tcp(*a)`. -/
def create_client_hooks (addr : List Char) : Except Unit (List CHook) :=
  match parse_address addr with
  | .error e => .error e
  | .ok (.unix path) => .ok [CHook.connUnix path]
  | .ok (.ws url) => .ok [CHook.connWS url]
  | .ok (.tcp h p) => .ok [CHook.connTcp h p]

/-- Models the dispatch in `create_async_client`, identical to
`create_client` apart from awaiting each connect hook. -/
def create_async_client_hooks (addr : List Char) : Except Unit (List CHook) :=
  match parse_address addr with
  | .error e => .error e
  | .ok (.unix path) => .ok [CHook.connUnix path]
  | .ok (.ws url) => .ok [CHook.connWS url]
  | .ok (.tcp h p) => .ok [CHook.connTcp h p]

/-! ## Lemmas about the string helpers -/

theorem dropPfx?_append (p s : List Char) : dropPfx? p (p ++ s) = some s := by
  induction p with
  | nil => rfl
  | cons c cs ih => simp [dropPfx?, ih]

theorem dropPfx?_cons_isSome (c : Char) (p : List Char) {s : List Char}
    (h : (dropPfx? (c :: p) s).isSome = true) : ∃ t, s = c :: t := by
  cases s with
  | nil => simp [dropPfx?] at h
  | cons d t =>
    by_cases hc : c = d
    · exact ⟨t, by rw [hc]⟩
    · simp [dropPfx?, hc] at h

theorem takeWhile_append_all {P : Char → Bool} (h l : List Char)
    (H : ∀ c ∈ h, P c = true) : (h ++ l).takeWhile P = h ++ l.takeWhile P := by
  induction h with
  | nil => rfl
  | cons c cs ih =>
    have hc : P c = true := H c (by simp)
    simp only [List.cons_append, List.takeWhile_cons, hc, if_true]
    rw [ih (fun d hd => H d (by simp [hd]))]

theorem dropWhile_append_all {P : Char → Bool} (h l : List Char)
    (H : ∀ c ∈ h, P c = true) : (h ++ l).dropWhile P = l.dropWhile P := by
  induction h with
  | nil => rfl
  | cons c cs ih =>
    have hc : P c = true := H c (by simp)
    simp only [List.cons_append, List.dropWhile_cons, hc, if_true]
    exact ih (fun d hd => H d (by simp [hd]))

theorem takeWhile_all {P : Char → Bool} {l : List Char}
    (H : ∀ c ∈ l, P c = true) : l.takeWhile P = l := by
  have := takeWhile_append_all l [] H
  simpa using this

theorem dropWhile_all {P : Char → Bool} {l : List Char}
    (H : ∀ c ∈ l, P c = true) : l.dropWhile P = [] := by
  have := dropWhile_append_all l [] H
  simpa using this

theorem dropWhile_all_false {P : Char → Bool} {l : List Char}
    (H : ∀ c ∈ l, P c = false) : l.dropWhile P = l := by
  cases l with
  | nil => rfl
  | cons c t => simp [List.dropWhile_cons, H c (by simp)]

theorem pyIsSpace_of_digit {c : Char} (h : c.isDigit = true) : pyIsSpace c = false := by
  unfold pyIsSpace
  by_cases h1 : c = ' '
  · subst h1; exact absurd h (by decide)
  by_cases h2 : c = '\t'
  · subst h2; exact absurd h (by decide)
  by_cases h3 : c = '\n'
  · subst h3; exact absurd h (by decide)
  by_cases h4 : c = '\r'
  · subst h4; exact absurd h (by decide)
  by_cases h5 : c = Char.ofNat 11
  · subst h5; exact absurd h (by decide)
  by_cases h6 : c = Char.ofNat 12
  · subst h6; exact absurd h (by decide)
  simp [h1, h2, h3, h4, h5, h6]

theorem pyStrip_digits {l : List Char} (H : ∀ c ∈ l, c.isDigit = true) :
    pyStrip l = l := by
  have H1 : ∀ c ∈ l, pyIsSpace c = false := fun c hc => pyIsSpace_of_digit (H c hc)
  have H2 : ∀ c ∈ l.reverse, pyIsSpace c = false := by
    intro c hc
    exact H1 c (List.mem_reverse.mp hc)
  unfold pyStrip
  rw [dropWhile_all_false H1, dropWhile_all_false H2, List.reverse_reverse]

theorem duTail_digits {l : List Char} (H : ∀ c ∈ l, c.isDigit = true) :
    duTail l = true := by
  induction l with
  | nil => rfl
  | cons c rest ih =>
    have hc : c.isDigit = true := H c (by simp)
    have hne : ¬(c = '_') := by
      intro e; subst e; exact absurd hc (by decide)
    simp only [duTail, if_neg hne, hc, Bool.true_and]
    exact ih (fun d hd => H d (by simp [hd]))

theorem filter_underscore_digits {l : List Char} (H : ∀ c ∈ l, c.isDigit = true) :
    l.filter (fun c => c != '_') = l := by
  rw [List.filter_eq_self]
  intro a ha
  have hd := H a ha
  simp only [bne_iff_ne, ne_eq, decide_eq_true_eq]
  intro e; subst e; exact absurd hd (by decide)

theorem pyInt?_digits {p : List Char} (hne : p ≠ [])
    (H : ∀ c ∈ p, c.isDigit = true) :
    pyInt? p = some (Int.ofNat (decVal p)) := by
  cases p with
  | nil => exact absurd rfl hne
  | cons c rest =>
    have hstrip : pyStrip (c :: rest) = c :: rest := pyStrip_digits H
    have hc : c.isDigit = true := H c (by simp)
    have h1 : ¬(c = '+') := by intro e; subst e; exact absurd hc (by decide)
    have h2 : ¬(c = '-') := by intro e; subst e; exact absurd hc (by decide)
    have hok : duOk (c :: rest) = true := by
      simp only [duOk, hc, Bool.true_and]
      exact duTail_digits (fun d hd => H d (by simp [hd]))
    simp only [pyInt?, hstrip, if_neg h1, if_neg h2, hok, if_true, duVal,
      filter_underscore_digits H]

/-! ## Claim theorems: address parsing -/

/-- C4: prefix resolution is first-match-wins: `parse_address` maps
`unix://` ++ s to `(Unix, s)` with the remainder verbatim, and any address
beginning with `ws://` or `wss://` to `(WebSocket, original string)`,
before any TCP interpretation. -/
theorem prefix_resolution_first_match :
    (∀ s : List Char, parse_address (UNIX_PFX ++ s) = .ok (.unix s)) ∧
    (∀ addr : List Char,
      (dropPfx? WS_PFX addr).isSome = true ∨ (dropPfx? WSS_PFX addr).isSome = true →
      parse_address addr = .ok (.ws addr)) := by
  constructor
  · intro s
    simp [parse_address, dropPfx?_append]
  · intro addr h
    have hw : ∃ t, addr = 'w' :: t := by
      rcases h with h | h
      · exact dropPfx?_cons_isSome 'w' "s://".toList h
      · exact dropPfx?_cons_isSome 'w' "ss://".toList h
    obtain ⟨t, rfl⟩ := hw
    have hu : dropPfx? UNIX_PFX ('w' :: t) = none := rfl
    rcases h with h | h <;> simp [parse_address, hu, h]

/-- Witness for C4 at the spec's own examples. -/
theorem prefix_resolution_first_match_witness :
    parse_address "unix:///tmp/s.sock".toList = .ok (.unix "/tmp/s.sock".toList) ∧
    parse_address "wss://cache.example/ws".toList = .ok (.ws "wss://cache.example/ws".toList) := by
  constructor
  · exact prefix_resolution_first_match.1 "/tmp/s.sock".toList
  · exact prefix_resolution_first_match.2 "wss://cache.example/ws".toList (Or.inr (by decide))

/-- C5: a prefix-free bracketed address `[h]:p` with `]`-free host and a
nonempty all-digit port spanning to the end parses to
`(Tcp, h, decimal value of p)`. -/
theorem bracketed_tcp_parse (h p : List Char)
    (hh : ∀ c ∈ h, c ≠ ']') (hp : p ≠ []) (hd : ∀ c ∈ p, c.isDigit = true) :
    parse_address ('[' :: (h ++ ']' :: ':' :: p)) = .ok (.tcp h (Int.ofNat (decVal p))) := by
  have hu : dropPfx? UNIX_PFX ('[' :: (h ++ ']' :: ':' :: p)) = none := rfl
  have hw : (dropPfx? WS_PFX ('[' :: (h ++ ']' :: ':' :: p))).isSome = false := rfl
  have hws : (dropPfx? WSS_PFX ('[' :: (h ++ ']' :: ':' :: p))).isSome = false := rfl
  have ht : (h ++ ']' :: ':' :: p).takeWhile (fun c => decide (c ≠ ']')) = h := by
    rw [takeWhile_append_all _ _ (fun c hc => by simp [hh c hc])]
    simp [List.takeWhile_cons]
  have hdr : (h ++ ']' :: ':' :: p).dropWhile (fun c => decide (c ≠ ']')) = ']' :: ':' :: p := by
    rw [dropWhile_append_all _ _ (fun c hc => by simp [hh c hc])]
    simp [List.dropWhile_cons]
  have hb : bracketMatch? ('[' :: (h ++ ']' :: ':' :: p)) = some (h, p) := by
    simp only [bracketMatch?, ht, hdr, takeWhile_all hd, dropWhile_all hd]
    simp [hp]
  simp only [parse_address, hu, hw, hws, Bool.or_self, Bool.false_eq_true, if_false, hb,
    pyInt?_digits hp hd]

/-- Witness for C5 at the spec's example `[::1]:8080`. -/
theorem bracketed_tcp_parse_witness :
    parse_address "[::1]:8080".toList = .ok (.tcp "::1".toList 8080) := by
  have h := bracketed_tcp_parse "::1".toList "8080".toList (by decide) (by decide) (by decide)
  exact h

/-- C6: a prefix-free, non-bracketed address whose colon-split does not
have exactly two parts makes `parse_address` fail. -/
theorem unbracketed_split_failure (addr : List Char)
    (hu : dropPfx? UNIX_PFX addr = none)
    (hw : (dropPfx? WS_PFX addr).isSome = false)
    (hws : (dropPfx? WSS_PFX addr).isSome = false)
    (hb : bracketMatch? addr = none)
    (hs : (List.splitOn ':' addr).length ≠ 2) :
    parse_address addr = .error () := by
  simp only [parse_address, hu, hw, hws, Bool.or_self, Bool.false_eq_true, if_false, hb]
  cases hsp : List.splitOn ':' addr with
  | nil => simp [hsp]
  | cons a t =>
    cases t with
    | nil => simp [hsp]
    | cons b t2 =>
      cases t2 with
      | nil => rw [hsp] at hs; simp at hs
      | cons d t3 => simp [hsp]

/-- Witness for C6 at the spec's example `bad:addr:nope`. -/
theorem unbracketed_split_failure_witness :
    parse_address "bad:addr:nope".toList = .error () :=
  unbracketed_split_failure _ rfl rfl rfl rfl (by decide)

/-- C1 counterexample: `host:-1` is prefix-free, non-bracketed, splits into
exactly two parts, its port text is not a non-negative decimal integer —
yet `parse_address` succeeds and returns a Tcp address with port `-1`. -/
theorem negative_port_counterexample :
    (List.splitOn ':' "host:-1".toList).length = 2 ∧
    bracketMatch? "host:-1".toList = none ∧
    dropPfx? UNIX_PFX "host:-1".toList = none ∧
    (dropPfx? WS_PFX "host:-1".toList).isSome = false ∧
    (dropPfx? WSS_PFX "host:-1".toList).isSome = false ∧
    parse_address "host:-1".toList = .ok (.tcp "host".toList (-1)) := by
  exact ⟨by decide, rfl, rfl, rfl, rfl, by decide⟩

/-- C1 amended: on a prefix-free, non-bracketed address splitting into
exactly (host, port-text), `parse_address` fails exactly when CPython
`int()` rejects the port text; a signed port text such as `-1` is
accepted and yields a (possibly negative) Tcp port. -/
theorem tcp_port_pyint_amended (addr h p : List Char)
    (hu : dropPfx? UNIX_PFX addr = none)
    (hw : (dropPfx? WS_PFX addr).isSome = false)
    (hws : (dropPfx? WSS_PFX addr).isSome = false)
    (hb : bracketMatch? addr = none)
    (hs : List.splitOn ':' addr = [h, p]) :
    parse_address addr =
      (match pyInt? p with
       | some n => .ok (.tcp h n)
       | none => .error ()) := by
  simp only [parse_address, hu, hw, hws, Bool.or_self, Bool.false_eq_true, if_false, hb, hs]

/-- Witness for the amended C1 at the spec's example `host:notaport`. -/
theorem tcp_port_pyint_amended_witness :
    parse_address "host:notaport".toList = .error () := by
  have h := tcp_port_pyint_amended "host:notaport".toList "host".toList "notaport".toList
    rfl rfl rfl rfl (by decide)
  simpa using h

/-- C9: the bracket pattern permits an empty host, so `[]:8080` parses to
`(Tcp, "", 8080)` instead of failing. -/
theorem empty_bracket_host_accepted :
    parse_address "[]:8080".toList = .ok (.tcp [] 8080) := by decide

/-! ## Lemmas about the database statements -/

theorem exbind_ok {α β : Type} (a : α) (f : α → Except Unit β) :
    Bind.bind (Except.ok a) f = f a := rfl

theorem tblReset_tables (n : String) (s : DBState) : (tblReset n s).tables = s.tables := by
  unfold tblReset; split_ifs <;> rfl

theorem tblReset_indexes (n : String) (s : DBState) : (tblReset n s).indexes = s.indexes := by
  unfold tblReset; split_ifs <;> rfl

theorem tblReset_journalMode (n : String) (s : DBState) :
    (tblReset n s).journalMode = s.journalMode := by
  unfold tblReset; split_ifs <;> rfl

theorem tblReset_synchronous (n : String) (s : DBState) :
    (tblReset n s).synchronous = s.synchronous := by
  unfold tblReset; split_ifs <;> rfl

/-- Statement `CREATE TABLE IF NOT EXISTS` always succeeds, ensures the table,
only ever adds this table name, and touches no index or pragma. -/
theorem step_createTable (n : String) (s : DBState) :
    ∃ t, sqlCreateTable n true s = .ok t ∧ n ∈ t.tables ∧
      (∀ m ∈ s.tables, m ∈ t.tables) ∧
      (∀ m, m ∈ t.tables → m = n ∨ m ∈ s.tables) ∧
      t.indexes = s.indexes ∧ t.journalMode = s.journalMode ∧
      t.synchronous = s.synchronous := by
  by_cases h : n ∈ s.tables
  · exact ⟨s, by simp [sqlCreateTable, h], h, fun m hm => hm, fun m hm => Or.inr hm,
      rfl, rfl, rfl⟩
  · refine ⟨{ tblReset n s with tables := n :: s.tables }, ?_, ?_, ?_, ?_, ?_, ?_, ?_⟩
    · simp [sqlCreateTable, h]
    · exact List.mem_cons_self n _
    · intro m hm
      exact List.mem_cons_of_mem _ hm
    · intro m hm
      exact List.mem_cons.mp hm
    · exact tblReset_indexes n s
    · exact tblReset_journalMode n s
    · exact tblReset_synchronous n s

/-- Statement `DROP INDEX IF EXISTS` always succeeds, removes the index, never adds
one, and touches no table, row or pragma. -/
theorem step_dropIndex (n : String) (s : DBState) :
    ∃ t, sqlDropIndex n true s = .ok t ∧ n ∉ t.indexes ∧
      (∀ m, m ∈ t.indexes → m ∈ s.indexes) ∧
      t.tables = s.tables ∧ t.uniRows = s.uniRows ∧ t.outRows = s.outRows ∧
      t.journalMode = s.journalMode ∧ t.synchronous = s.synchronous := by
  by_cases h : n ∈ s.indexes
  · refine ⟨{ s with indexes := s.indexes.filter (fun i => i ≠ n) }, ?_, ?_, ?_,
      rfl, rfl, rfl, rfl, rfl⟩
    · simp [sqlDropIndex, h]
    · intro hmem
      have := (List.mem_filter.mp hmem).2
      simp at this
    · intro m hm
      exact (List.mem_filter.mp hm).1
  · exact ⟨s, by simp [sqlDropIndex, h], h, fun m hm => hm, rfl, rfl, rfl, rfl, rfl⟩

/-- Statement `DROP TABLE IF EXISTS` always succeeds, removes the table, keeps every
other table, and touches no index or pragma. -/
theorem step_dropTable (n : String) (s : DBState) :
    ∃ t, sqlDropTable n true s = .ok t ∧ n ∉ t.tables ∧
      (∀ m, m ∈ s.tables → m ≠ n → m ∈ t.tables) ∧
      t.indexes = s.indexes ∧ t.journalMode = s.journalMode ∧
      t.synchronous = s.synchronous := by
  by_cases h : n ∈ s.tables
  · refine ⟨{ tblReset n s with tables := s.tables.filter (fun t => t ≠ n) }, ?_, ?_, ?_,
      ?_, ?_, ?_⟩
    · simp [sqlDropTable, h]
    · intro hmem
      have := (List.mem_filter.mp hmem).2
      simp at this
    · intro m hm hne
      apply List.mem_filter.mpr
      exact ⟨hm, by simp [hne]⟩
    · exact tblReset_indexes n s
    · exact tblReset_journalMode n s
    · exact tblReset_synchronous n s
  · exact ⟨s, by simp [sqlDropTable, h], h, fun m hm _ => hm, rfl, rfl, rfl⟩

/-- Statement `CREATE INDEX IF NOT EXISTS ... ON tbl` succeeds when `tbl` exists,
ensures the index, only ever adds this index name, and touches no table,
row or pragma. -/
theorem step_createIndex (n tbl : String) (s : DBState) (htbl : tbl ∈ s.tables) :
    ∃ t, sqlCreateIndex n tbl true s = .ok t ∧ n ∈ t.indexes ∧
      (∀ m ∈ s.indexes, m ∈ t.indexes) ∧
      (∀ m, m ∈ t.indexes → m = n ∨ m ∈ s.indexes) ∧
      t.tables = s.tables ∧ t.uniRows = s.uniRows ∧ t.outRows = s.outRows ∧
      t.journalMode = s.journalMode ∧ t.synchronous = s.synchronous := by
  by_cases h1 : n ∈ s.indexes
  · exact ⟨s, by simp [sqlCreateIndex, h1], h1, fun m hm => hm, fun m hm => Or.inr hm,
      rfl, rfl, rfl, rfl, rfl⟩
  · refine ⟨{ s with indexes := n :: s.indexes }, ?_, List.mem_cons_self n _,
      fun m hm => List.mem_cons_of_mem _ hm,
      fun m hm => List.mem_cons.mp hm, rfl, rfl, rfl, rfl, rfl⟩
    simp [sqlCreateIndex, h1, htbl]

/-- Any call of `setup_database` succeeds, leaves the schema in the
`SetupDone` shape, and ends with journal mode WAL and the synchronous
level selected by the `sync` flag. -/
theorem setup_database_total (s : DBState) (sync : Bool) :
    ∃ t, setup_database s sync = .ok t ∧ SetupDone t ∧
      t.journalMode = "WAL" ∧
      t.synchronous = (if sync then "NORMAL" else "OFF") := by
  obtain ⟨t1, e1, m1, p1, q1, i1, j1, y1⟩ := step_createTable "unihashes_v2" s
  obtain ⟨t2, e2, m2, p2, q2, i2, j2, y2⟩ := step_createTable "outhashes_v2" t1
  set t3 : DBState := { t2 with journalMode := "WAL" } with ht3
  set t4 : DBState := { t3 with synchronous := if sync then "NORMAL" else "OFF" } with ht4
  obtain ⟨t5, e5, m5, p5, b5, u5, o5, j5, y5⟩ := step_dropIndex "taskhash_lookup" t4
  obtain ⟨t6, e6, m6, p6, b6, u6, o6, j6, y6⟩ := step_dropIndex "outhash_lookup" t5
  obtain ⟨t7, e7, m7, p7, b7, u7, o7, j7, y7⟩ := step_dropIndex "taskhash_lookup_v2" t6
  obtain ⟨t8, e8, m8, p8, b8, u8, o8, j8, y8⟩ := step_dropIndex "outhash_lookup_v2" t7
  obtain ⟨t9, e9, m9, p9, i9, j9, y9⟩ := step_dropTable "tasks_v2" t8
  have huni9 : "unihashes_v2" ∈ t9.tables := by
    apply p9 _ _ (by decide)
    rw [b8, b7, b6, b5]
    show "unihashes_v2" ∈ t2.tables
    exact p2 _ m1
  have hout9 : "outhashes_v2" ∈ t9.tables := by
    apply p9 _ _ (by decide)
    rw [b8, b7, b6, b5]
    show "outhashes_v2" ∈ t2.tables
    exact m2
  obtain ⟨t10, e10, m10, p10, q10, b10, u10, o10, j10, y10⟩ :=
    step_createIndex "taskhash_lookup_v3" "unihashes_v2" t9 huni9
  obtain ⟨t11, e11, m11, p11, q11, b11, u11, o11, j11, y11⟩ :=
    step_createIndex "outhash_lookup_v3" "outhashes_v2" t10 (b10 ▸ hout9)
  refine ⟨t11, ?_, ?_, ?_, ?_⟩
  · have e3 : sqlPragmaJournal "WAL" t2 = .ok t3 := rfl
    have e4 : sqlPragmaSync (if sync then "NORMAL" else "OFF") t3 = .ok t4 := rfl
    simp only [setup_database, e1, exbind_ok, e2, e3, e4, e5, e6, e7, e8, e9, e10, e11]
    rfl
  · refine ⟨?_, ?_, ?_, ?_, ?_, ?_, ?_, ?_, ?_⟩
    · rw [b11, b10]; exact huni9
    · rw [b11, b10]; exact hout9
    · rw [b11, b10]; exact m9
    · exact p11 _ m10
    · exact m11
    · intro hc
      rcases q11 _ hc with h | h
      · exact absurd h (by decide)
      rcases q10 _ h with h | h
      · exact absurd h (by decide)
      rw [i9] at h
      exact m5 (p6 _ (p7 _ (p8 _ h)))
    · intro hc
      rcases q11 _ hc with h | h
      · exact absurd h (by decide)
      rcases q10 _ h with h | h
      · exact absurd h (by decide)
      rw [i9] at h
      exact m6 (p7 _ (p8 _ h))
    · intro hc
      rcases q11 _ hc with h | h
      · exact absurd h (by decide)
      rcases q10 _ h with h | h
      · exact absurd h (by decide)
      rw [i9] at h
      exact m7 (p8 _ h)
    · intro hc
      rcases q11 _ hc with h | h
      · exact absurd h (by decide)
      rcases q10 _ h with h | h
      · exact absurd h (by decide)
      rw [i9] at h
      exact m8 h
  · rw [j11, j10, j9, j8, j7, j6, j5]
  · rw [y11, y10, y9, y8, y7, y6, y5]

/-! ## Claim theorems: database -/

/-- C2: `setup_database` is idempotent: once a call has succeeded, any
later call on a store with the same tables and indexes (rows may have
been inserted in between) succeeds, changes no table, index or row, and
only re-applies the two pragmas. -/
theorem setup_database_idempotent (s0 : DBState) (sync1 sync2 : Bool) (s1 s2 : DBState)
    (h1 : setup_database s0 sync1 = .ok s1)
    (ht : s2.tables = s1.tables) (hi : s2.indexes = s1.indexes) :
    setup_database s2 sync2 =
      .ok { s2 with journalMode := "WAL",
                    synchronous := if sync2 then "NORMAL" else "OFF" } := by
  obtain ⟨t, e, hd, _, _⟩ := setup_database_total s0 sync1
  rw [h1] at e
  injection e with e
  subst e
  obtain ⟨hA, hB, hC, hD, hE, hF, hG, hH, hI⟩ := hd
  rw [← ht] at hA hB hC
  rw [← hi] at hD hE hF hG hH hI
  have e1 : sqlCreateTable "unihashes_v2" true s2 = .ok s2 := by
    simp [sqlCreateTable, hA]
  have e2 : sqlCreateTable "outhashes_v2" true s2 = .ok s2 := by
    simp [sqlCreateTable, hB]
  have e3 : sqlPragmaJournal "WAL" s2 = .ok { s2 with journalMode := "WAL" } := rfl
  have e4 : sqlPragmaSync (if sync2 then "NORMAL" else "OFF") { s2 with journalMode := "WAL" } =
      .ok { s2 with journalMode := "WAL",
                    synchronous := if sync2 then "NORMAL" else "OFF" } := rfl
  have e5 : sqlDropIndex "taskhash_lookup" true
      { s2 with journalMode := "WAL",
                synchronous := if sync2 then "NORMAL" else "OFF" } =
      .ok { s2 with journalMode := "WAL",
                    synchronous := if sync2 then "NORMAL" else "OFF" } := by
    simp [sqlDropIndex, hF]
  have e6 : sqlDropIndex "outhash_lookup" true
      { s2 with journalMode := "WAL",
                synchronous := if sync2 then "NORMAL" else "OFF" } =
      .ok { s2 with journalMode := "WAL",
                    synchronous := if sync2 then "NORMAL" else "OFF" } := by
    simp [sqlDropIndex, hG]
  have e7 : sqlDropIndex "taskhash_lookup_v2" true
      { s2 with journalMode := "WAL",
                synchronous := if sync2 then "NORMAL" else "OFF" } =
      .ok { s2 with journalMode := "WAL",
                    synchronous := if sync2 then "NORMAL" else "OFF" } := by
    simp [sqlDropIndex, hH]
  have e8 : sqlDropIndex "outhash_lookup_v2" true
      { s2 with journalMode := "WAL",
                synchronous := if sync2 then "NORMAL" else "OFF" } =
      .ok { s2 with journalMode := "WAL",
                    synchronous := if sync2 then "NORMAL" else "OFF" } := by
    simp [sqlDropIndex, hI]
  have e9 : sqlDropTable "tasks_v2" true
      { s2 with journalMode := "WAL",
                synchronous := if sync2 then "NORMAL" else "OFF" } =
      .ok { s2 with journalMode := "WAL",
                    synchronous := if sync2 then "NORMAL" else "OFF" } := by
    simp [sqlDropTable, hC]
  have e10 : sqlCreateIndex "taskhash_lookup_v3" "unihashes_v2" true
      { s2 with journalMode := "WAL",
                synchronous := if sync2 then "NORMAL" else "OFF" } =
      .ok { s2 with journalMode := "WAL",
                    synchronous := if sync2 then "NORMAL" else "OFF" } := by
    simp [sqlCreateIndex, hD]
  have e11 : sqlCreateIndex "outhash_lookup_v3" "outhashes_v2" true
      { s2 with journalMode := "WAL",
                synchronous := if sync2 then "NORMAL" else "OFF" } =
      .ok { s2 with journalMode := "WAL",
                    synchronous := if sync2 then "NORMAL" else "OFF" } := by
    simp [sqlCreateIndex, hE]
  simp only [setup_database, e1, exbind_ok, e2, e3, e4, e5, e6, e7, e8, e9, e10, e11]
  rfl

/-- Witness for C2: two concrete calls on a fresh store with one row
inserted into each table in between; the second call preserves them. -/
theorem setup_database_idempotent_witness :
    setup_database wDB2 false =
      .ok { wDB2 with journalMode := "WAL", synchronous := "OFF" } := by
  have h := setup_database_idempotent wDB0 true false wDB1 wDB2 (by decide) rfl rfl
  simpa using h

/-- C8: every `setup_database` call ends with journal mode WAL and with
the synchronous level NORMAL exactly when `sync` is true, OFF exactly
when it is false. -/
theorem setup_database_sets_pragmas (s : DBState) (sync : Bool) :
    ∃ t, setup_database s sync = .ok t ∧ t.journalMode = "WAL" ∧
      t.synchronous = (if sync then "NORMAL" else "OFF") := by
  obtain ⟨t, e, _, hj, hs⟩ := setup_database_total s sync
  exact ⟨t, e, hj, hs⟩

/-- C3: the composite `UNIQUE` clauses generated by `_make_table` are
(method, taskhash) for `unihashes_v2` and (method, taskhash, outhash)
for `outhashes_v2`; an insert that duplicates an existing key is
rejected, while an `outhashes_v2` insert sharing (method, taskhash) but
with a fresh outhash is accepted. -/
theorem unique_constraints_on_insert :
    uniqueCols UNIHASH_TABLE_DEFINITION = ["method", "taskhash"] ∧
    uniqueCols OUTHASH_TABLE_DEFINITION = ["method", "taskhash", "outhash"] ∧
    (∀ (s : DBState) (r0 r : UniRow), "unihashes_v2" ∈ s.tables → r0 ∈ s.uniRows →
      r0.method = r.method → r0.taskhash = r.taskhash →
      insert_unihash s r = .error ()) ∧
    (∀ (s : DBState) (r : OutRow), "outhashes_v2" ∈ s.tables →
      (∀ r0 ∈ s.outRows,
        ¬(r0.method = r.method ∧ r0.taskhash = r.taskhash ∧ r0.outhash = r.outhash)) →
      insert_outhash s r = .ok { s with outRows := s.outRows ++ [r] }) ∧
    (∀ (s : DBState) (r0 r : OutRow), "outhashes_v2" ∈ s.tables → r0 ∈ s.outRows →
      r0.method = r.method → r0.taskhash = r.taskhash → r0.outhash = r.outhash →
      insert_outhash s r = .error ()) := by
  have hcu : uniqueCols UNIHASH_TABLE_DEFINITION = ["method", "taskhash"] := by decide
  have hco : uniqueCols OUTHASH_TABLE_DEFINITION = ["method", "taskhash", "outhash"] := by
    decide
  refine ⟨hcu, hco, ?_, ?_, ?_⟩
  · intro s r0 r hmem hr0 hm ht
    have hany : (s.uniRows.any fun q =>
        (uniqueCols UNIHASH_TABLE_DEFINITION).all fun c => uniColVal q c == uniColVal r c) =
          true := by
      rw [List.any_eq_true]
      refine ⟨r0, hr0, ?_⟩
      rw [hcu]
      simp [uniColVal, hm, ht]
    simp [insert_unihash, hmem, hany]
  · intro s r hmem hno
    have hany : (s.outRows.any fun q =>
        (uniqueCols OUTHASH_TABLE_DEFINITION).all fun c => outColVal q c == outColVal r c) =
          false := by
      rw [List.any_eq_false]
      intro q hq
      rw [hco]
      intro hall
      apply hno q hq
      simpa [outColVal] using hall
    simp [insert_outhash, hmem, hany]
  · intro s r0 r hmem hr0 hm ht ho
    have hany : (s.outRows.any fun q =>
        (uniqueCols OUTHASH_TABLE_DEFINITION).all fun c => outColVal q c == outColVal r c) =
          true := by
      rw [List.any_eq_true]
      refine ⟨r0, hr0, ?_⟩
      rw [hco]
      simp [outColVal, hm, ht, ho]
    simp [insert_outhash, hmem, hany]

/-- Witness for C3: concrete inserts into the store `wDB2`. -/
theorem unique_constraints_on_insert_witness :
    insert_unihash wDB2 ⟨"sha256", "t1", "u9"⟩ = .error () ∧
    insert_outhash wDB2 ⟨"sha256", "t1", "o2", none, none, none, none, none, none, none⟩ =
      .ok { wDB2 with outRows :=
        wDB2.outRows ++ [⟨"sha256", "t1", "o2", none, none, none, none, none, none, none⟩] } ∧
    insert_outhash wDB2 ⟨"sha256", "t1", "o1", none, none, none, none, none, none, none⟩ =
      .error () := by
  refine ⟨?_, ?_, ?_⟩
  · exact unique_constraints_on_insert.2.2.1 wDB2 wRow ⟨"sha256", "t1", "u9"⟩
      (by decide) (by decide) rfl rfl
  · exact unique_constraints_on_insert.2.2.2.1 wDB2
      ⟨"sha256", "t1", "o2", none, none, none, none, none, none, none⟩
      (by decide) (by decide)
  · exact unique_constraints_on_insert.2.2.2.2 wDB2 wORow
      ⟨"sha256", "t1", "o1", none, none, none, none, none, none, none⟩
      (by decide) (by decide) rfl rfl rfl

/-! ## Lemmas about URL parsing and the factories -/

theorem parse_address_ws (addr : List Char)
    (h : (dropPfx? WS_PFX addr).isSome = true ∨ (dropPfx? WSS_PFX addr).isSome = true) :
    parse_address addr = .ok (.ws addr) := by
  have hw : ∃ t, addr = 'w' :: t := by
    rcases h with h | h
    · exact dropPfx?_cons_isSome 'w' "s://".toList h
    · exact dropPfx?_cons_isSome 'w' "ss://".toList h
  obtain ⟨t, rfl⟩ := hw
  have hu : dropPfx? UNIX_PFX ('w' :: t) = none := rfl
  rcases h with h | h <;> simp [parse_address, hu, h]

theorem urlPort?_none {addr : List Char} (h : (hostinfoOf (netlocOf addr)).2 = none) :
    urlPort? addr = .ok none := by
  simp [urlPort?, h]

theorem toNat_ofNat_valid (n : Nat) (h : n < 55296) : (Char.ofNat n).toNat = n := by
  simp [Char.ofNat, Nat.isValidChar, h, Char.toNat, Char.ofNatAux, UInt32.toNat]

theorem toNat_pyLower (c : Char) :
    (pyLower c).toNat = if 65 ≤ c.toNat ∧ c.toNat ≤ 90 then c.toNat + 32 else c.toNat := by
  unfold pyLower
  split_ifs with h
  · exact toNat_ofNat_valid _ (by omega)
  · rfl

theorem pyLower_not_upper (c : Char) :
    ¬(65 ≤ (pyLower c).toNat ∧ (pyLower c).toNat ≤ 90) := by
  rw [toNat_pyLower]
  split_ifs with h <;> omega

theorem pyLower_ne_pct {c : Char} (h : c ≠ '%') : pyLower c ≠ '%' := by
  unfold pyLower
  split_ifs with hi
  · intro e
    have he := congrArg Char.toNat e
    rw [toNat_ofNat_valid _ (by omega)] at he
    have h37 : Char.toNat '%' = 37 := rfl
    rw [h37] at he
    omega
  · exact h

theorem partition3_fst (ch : Char) (s : List Char) :
    (partition3 ch s).1 = s.takeWhile (fun x => x ≠ ch) := by
  unfold partition3
  split <;> rfl

theorem mem_partition3_fst {ch : Char} {s : List Char} {c : Char}
    (h : c ∈ (partition3 ch s).1) : c ≠ ch := by
  rw [partition3_fst] at h
  have := List.mem_takeWhile_imp h
  simpa using this

/-! ## Claim theorems: factories -/

/-- C7 counterexample: the ws-kind address `ws://h:x` makes
`create_server` raise while evaluating `url.port`, so it invokes no
hook at all, while `create_client` still invokes its websocket hook. -/
theorem ws_server_invalid_port_counterexample :
    parse_address "ws://h:x".toList = .ok (.ws "ws://h:x".toList) ∧
    create_server_hooks "ws://h:x".toList = .error () ∧
    create_client_hooks "ws://h:x".toList = .ok [CHook.connWS "ws://h:x".toList] :=
  ⟨rfl, rfl, rfl⟩

/-- C7 amended: for unix and tcp address kinds all three factories invoke
exactly the matching hook once and no other; for the ws kind both client
factories invoke exactly the websocket connect hook once, and
`create_server` invokes exactly the websocket start hook once provided
URL port parsing succeeds — otherwise it fails before any hook. -/
theorem factories_invoke_matching_hook :
    (∀ addr path, parse_address addr = .ok (.unix path) →
      create_server_hooks addr = .ok [SHook.startUnix path] ∧
      create_client_hooks addr = .ok [CHook.connUnix path] ∧
      create_async_client_hooks addr = .ok [CHook.connUnix path]) ∧
    (∀ addr h p, parse_address addr = .ok (.tcp h p) →
      create_server_hooks addr = .ok [SHook.startTcp h p] ∧
      create_client_hooks addr = .ok [CHook.connTcp h p] ∧
      create_async_client_hooks addr = .ok [CHook.connTcp h p]) ∧
    (∀ addr url, parse_address addr = .ok (.ws url) →
      create_client_hooks addr = .ok [CHook.connWS url] ∧
      create_async_client_hooks addr = .ok [CHook.connWS url] ∧
      ((∃ pp, urlPort? url = .ok pp ∧
          create_server_hooks addr = .ok [SHook.startWS (urlHostname url) pp]) ∨
        (urlPort? url = .error () ∧ create_server_hooks addr = .error ()))) := by
  refine ⟨?_, ?_, ?_⟩
  · intro addr path h
    exact ⟨by simp [create_server_hooks, h], by simp [create_client_hooks, h],
      by simp [create_async_client_hooks, h]⟩
  · intro addr hst p h
    exact ⟨by simp [create_server_hooks, h], by simp [create_client_hooks, h],
      by simp [create_async_client_hooks, h]⟩
  · intro addr url h
    refine ⟨by simp [create_client_hooks, h], by simp [create_async_client_hooks, h], ?_⟩
    cases hp : urlPort? url with
    | ok pp => exact Or.inl ⟨pp, rfl, by simp [create_server_hooks, h, hp]⟩
    | error e =>
      cases e
      exact Or.inr ⟨rfl, by simp [create_server_hooks, h, hp]⟩

/-- Witness for the amended C7 at one concrete address per kind. -/
theorem factories_invoke_matching_hook_witness :
    create_server_hooks "unix:///a".toList = .ok [SHook.startUnix "/a".toList] ∧
    create_client_hooks "example.com:9000".toList =
      .ok [CHook.connTcp "example.com".toList 9000] ∧
    create_async_client_hooks "ws://h:8688/x".toList =
      .ok [CHook.connWS "ws://h:8688/x".toList] :=
  ⟨(factories_invoke_matching_hook.1 _ _ (by decide)).1,
   (factories_invoke_matching_hook.2.1 _ _ _ (by decide)).2.1,
   (factories_invoke_matching_hook.2.2 _ _ (by decide)).2.1⟩

/-- C10: for ws/wss addresses `create_server` hands the listener the
hostname and port extracted by URL parsing — port `None` when the URL
carries no explicit port, hostname lower-cased (before any `%` zone id)
— while `create_client` passes the original URL string unchanged. -/
theorem ws_server_parses_url_client_passes_raw :
    (∀ addr pp,
      ((dropPfx? WS_PFX addr).isSome = true ∨ (dropPfx? WSS_PFX addr).isSome = true) →
      urlPort? addr = .ok pp →
      create_server_hooks addr = .ok [SHook.startWS (urlHostname addr) pp]) ∧
    (∀ addr,
      ((dropPfx? WS_PFX addr).isSome = true ∨ (dropPfx? WSS_PFX addr).isSome = true) →
      create_client_hooks addr = .ok [CHook.connWS addr]) ∧
    (∀ addr,
      ((dropPfx? WS_PFX addr).isSome = true ∨ (dropPfx? WSS_PFX addr).isSome = true) →
      (hostinfoOf (netlocOf addr)).2 = none →
      create_server_hooks addr = .ok [SHook.startWS (urlHostname addr) none]) ∧
    (∀ addr hn, urlHostname addr = some hn →
      ∀ c ∈ (partition3 '%' hn).1, ¬(65 ≤ c.toNat ∧ c.toNat ≤ 90)) := by
  have hsrv : ∀ addr pp,
      ((dropPfx? WS_PFX addr).isSome = true ∨ (dropPfx? WSS_PFX addr).isSome = true) →
      urlPort? addr = .ok pp →
      create_server_hooks addr = .ok [SHook.startWS (urlHostname addr) pp] := by
    intro addr pp hws hp
    have hpa := parse_address_ws addr hws
    simp [create_server_hooks, hpa, hp]
  refine ⟨hsrv, ?_, ?_, ?_⟩
  · intro addr hws
    simp [create_client_hooks, parse_address_ws addr hws]
  · intro addr hws hnone
    exact hsrv addr none hws (urlPort?_none hnone)
  · intro addr hn he c hc
    unfold urlHostname at he
    by_cases hne : (hostinfoOf (netlocOf addr)).1 = []
    · simp [hne] at he
    · simp only [hne, if_false, if_neg hne] at he
      injection he with he
      subst he
      have hpre : ∀ d ∈ (partition3 '%' ((hostinfoOf (netlocOf addr)).1)).1, d ≠ '%' :=
        fun d hd => mem_partition3_fst hd
      have hmap : ∀ d ∈ (partition3 '%' ((hostinfoOf (netlocOf addr)).1)).1.map pyLower,
          decide (d ≠ '%') = true := by
        intro d hd
        obtain ⟨d0, hd0, rfl⟩ := List.mem_map.mp hd
        simp [pyLower_ne_pct (hpre d0 hd0)]
      rw [partition3_fst] at hc
      by_cases hfp : (partition3 '%' ((hostinfoOf (netlocOf addr)).1)).2.1 = true
      · rw [hfp] at hc
        rw [if_pos rfl] at hc
        rw [takeWhile_append_all _ _ hmap] at hc
        simp only [List.takeWhile_cons] at hc
        rw [if_neg (by simp)] at hc
        rw [List.append_nil] at hc
        obtain ⟨d0, hd0, rfl⟩ := List.mem_map.mp hc
        exact pyLower_not_upper d0
      · simp only [Bool.not_eq_true] at hfp
        rw [hfp] at hc
        rw [if_neg (by simp)] at hc
        rw [List.append_nil, takeWhile_all hmap] at hc
        obtain ⟨d0, hd0, rfl⟩ := List.mem_map.mp hc
        exact pyLower_not_upper d0

/-- Witness for C10 at a mixed-case, port-free ws URL. -/
theorem ws_server_parses_url_client_passes_raw_witness :
    create_server_hooks "ws://Example.COM/path".toList =
      .ok [SHook.startWS (some "example.com".toList) none] ∧
    create_client_hooks "ws://Example.COM/path".toList =
      .ok [CHook.connWS "ws://Example.COM/path".toList] := by
  constructor
  · have h := ws_server_parses_url_client_passes_raw.2.2.1 "ws://Example.COM/path".toList
      (Or.inl (by decide)) (by decide)
    rw [show urlHostname "ws://Example.COM/path".toList = some "example.com".toList from
      by decide] at h
    exact h
  · exact ws_server_parses_url_client_passes_raw.2.1 _ (Or.inl (by decide))

end HashServ
